import Mathlib

/-!
Verification of the OCR Sudoku Solver web application (`src/app.py`).

The repository's source under `src/` is the single Flask entry point
`app.py`.  Its helpers `utils.image_processor` (`locate_puzzle`,
`extract_digit`), `utils.sudoku` (`Sudoku`), and the Keras model are not
part of the sources; they are modelled as opaque parameters of the
pipeline (an `Env` record of stage outcomes), faithful to how `app.py`
consumes them.  Python strings are modelled as `List Char`, images and
grids as `List (List Nat)`, exceptions as `Except` values carrying the
exception's class name and message, and the temp-file side effects as an
explicit list of existing file names.
-/

namespace OCRSudoku

/-- Python `str` modelled as a list of characters. -/
abbrev PyStr := List Char

/-- A 2-D array of pixel intensities (`numpy` image) as a list of rows. -/
abbrev Image := List (List Nat)

/-- A 9×9 Sudoku grid as a list of rows of digits. -/
abbrev Grid := List (List Nat)

/-- `board[i][j]` access with Python-free defaults (used under bounds). -/
def getCell (g : Grid) (i j : Nat) : Nat := (g.getD i []).getD j 0

/-- A Python exception: its class name (kind) and its `str(e)` message. -/
structure PyExc where
  kind : String
  msg : String
deriving DecidableEq

/-- The rendered HTML responses `app.py` can produce:
the bare index page, `render_template_string(..., result=...)`, and
`render_template_string(..., error=...)`. -/
inductive Response where
  | indexPage : Response
  | resultPage : String → Response
  | errorPage : String → Response
deriving DecidableEq

/-! ### The renderer (`format_board`, app.py lines 191-205) -/

/-- The horizontal border/separator line `"+-----------------------+"`. -/
def sepLine : PyStr := ("+-----------------------+").data

/-- Python `f"{d}"` for an `int`. -/
def digitRepr (n : Nat) : PyStr := (toString n).data

/-- The character `'0' + d` (what `f"{d}"` prints for `d ≤ 9`). -/
def digitChar (d : Nat) : Char := Char.ofNat (48 + d)

/-- One iteration of the inner `for j in range(9)` loop of `format_board`:
`"| "` at box boundaries, then the digit, then `" |\n"` at the row end or
`" "` inside the row. -/
def cellStr (board : Grid) (i j : Nat) : PyStr :=
  (if j % 3 = 0 then ['|', ' '] else [])
    ++ digitRepr (getCell board i j)
    ++ (if j = 8 then [' ', '|', '\n'] else [' '])

/-- The inner loop of `format_board`, accumulating over `j = 0..8`. -/
def rowStr (board : Grid) (i : Nat) : PyStr :=
  (List.range 9).foldl (fun acc j => acc ++ cellStr board i j) []

/-- `format_board` from app.py: top border, nine rows with a separator
line before rows 3 and 6, bottom border without trailing newline. -/
def format_board (board : Grid) : PyStr :=
  ((List.range 9).foldl
    (fun acc i =>
      acc ++ (if i % 3 = 0 ∧ i ≠ 0 then sepLine ++ ['\n'] else [])
        ++ rowStr board i)
    (sepLine ++ ['\n'])) ++ sepLine

/-- One rendered digit row without its trailing newline, written out as
the literal character sequence `| d d d | d d d | d d d |`. -/
def rowLine (b : Grid) (i : Nat) : PyStr :=
  ['|', ' '] ++ digitRepr (getCell b i 0) ++ [' '] ++ digitRepr (getCell b i 1)
    ++ [' '] ++ digitRepr (getCell b i 2) ++ [' ', '|', ' ']
    ++ digitRepr (getCell b i 3) ++ [' '] ++ digitRepr (getCell b i 4)
    ++ [' '] ++ digitRepr (getCell b i 5) ++ [' ', '|', ' ']
    ++ digitRepr (getCell b i 6) ++ [' '] ++ digitRepr (getCell b i 7)
    ++ [' '] ++ digitRepr (getCell b i 8) ++ [' ', '|']

/-! ### Splitting rendered text into lines, and parsing it back -/

/-- Split a character sequence at newlines (accumulator of the current
line, reversed). -/
def splitLinesAux : List Char → List Char → List PyStr
  | [], acc => [acc.reverse]
  | c :: cs, acc =>
    if c = '\n' then acc.reverse :: splitLinesAux cs []
    else splitLinesAux cs (c :: acc)

/-- The lines of a text block. -/
def splitLines (s : PyStr) : List PyStr := splitLinesAux s []

/-- Join lines with newlines (inverse of `splitLines` on newline-free
lines). -/
def joinLines : List PyStr → PyStr
  | [] => []
  | [l] => l
  | l :: ls => l ++ '\n' :: joinLines ls

/-- The digit values appearing in a line, in order (borders, `|` and
spaces are stripped). -/
def parseDigits (cs : PyStr) : List Nat :=
  cs.filterMap (fun c => if c.isDigit then some (c.toNat - 48) else none)

/-- Parse a rendered board back into a grid: split into lines, read the
digits of each line, and drop the digit-free border/separator lines. -/
def parseBoard (t : PyStr) : Grid :=
  ((splitLines t).map parseDigits).filter (fun r => !r.isEmpty)

/-- A well-formed 9×9 grid of digits 0–9. -/
def Valid9x9 (g : Grid) : Prop :=
  g.length = 9 ∧ ∀ r ∈ g, r.length = 9 ∧ ∀ d ∈ r, d ≤ 9

instance : DecidablePred Valid9x9 := fun g => by
  unfold Valid9x9; infer_instance

/-! ### Cell segmentation (app.py lines 147-157) -/

/-- Height of an image (`shape[0]`). -/
def imgH (img : Image) : Nat := img.length

/-- Width of an image (`shape[1]`), read off the first row. -/
def imgW (img : Image) : Nat := (img.headD []).length

/-- 2-D slicing `img[sY:eY, sX:eX]` with Python slice semantics. -/
def slice2d (img : Image) (sY eY sX eX : Nat) : Image :=
  ((img.drop sY).take (eY - sY)).map (fun r => (r.drop sX).take (eX - sX))

/-- The cell sub-image at `(row y, col x)`:
`warped[y*stepY:(y+1)*stepY, x*stepX:(x+1)*stepX]` with
`stepX = width // 9`, `stepY = height // 9`. -/
def cellAt (warped : Image) (y x : Nat) : Image :=
  let stepX := imgW warped / 9
  let stepY := imgH warped / 9
  slice2d warped (y * stepY) ((y + 1) * stepY) (x * stepX) ((x + 1) * stepX)

/-! ### The cell loop with classification (app.py lines 150-169) -/

/-- One cell body of the double loop: if `extract_digit` returns `None`
the board entry stays `0` and the classifier is not called; otherwise the
classifier runs (and may raise). -/
def cellClassifyE (extract : Image → Option Image)
    (classify : Image → Except PyExc Nat) (cell : Image) : Except PyExc Nat :=
  match extract cell with
  | none => .ok 0
  | some g => classify g

/-- `cellClassifyE` instrumented with the number of classifier
invocations made for the cell. -/
def cellClassifyCnt (extract : Image → Option Image)
    (classify : Image → Except PyExc Nat) (cell : Image) :
    Except PyExc Nat × Nat :=
  match extract cell with
  | none => (.ok 0, 0)
  | some g => (classify g, 1)

/-- Run `f` over a list, propagating the first raised exception
(the semantics of an uncaught exception inside a Python `for` loop). -/
def mapE (f : α → Except PyExc β) : List α → Except PyExc (List β)
  | [] => .ok []
  | a :: l =>
    match f a with
    | .error e => .error e
    | .ok b =>
      match mapE f l with
      | .error e => .error e
      | .ok bs => .ok (b :: bs)

/-- The double loop of app.py lines 150-169: row-major over the 81 cells
of the warped board, building the candidate grid; an exception raised
while classifying any cell aborts the whole loop. -/
def buildBoardE (extract : Image → Option Image)
    (classify : Image → Except PyExc Nat) (warped : Image) :
    Except PyExc Grid :=
  mapE (fun y =>
      mapE (fun x => cellClassifyE extract classify (cellAt warped y x))
        (List.range 9))
    (List.range 9)

/-! ### The `/solve` handler (app.py lines 117-189) -/

/-- The outcomes of the externally supplied stages consumed by the
handler, one request's worth.  `locate_puzzle`, `extract_digit`, the
Keras classifier and `Sudoku.solve` live outside `src/`, so each is a
parameter; `sudoku_solve` is Modelled from the spec: `utils.sudoku` is
missing from the sources, and per §4.5 `solve` returns a solution grid or
reports failure. -/
structure Env where
  hasImageFile : Bool
  filename : String
  tempName : String
  saveResult : Except PyExc Unit
  imreadResult : Option Image
  locate_puzzle : Image → Except PyExc Image
  extract_digit : Image → Option Image
  classify : Image → Except PyExc Nat
  sudoku_solve : Grid → Option Grid

/-- The body of the inner `try` (app.py lines 133-181): decode, locate
the board, build the candidate grid, solve, render.  `Except.error` is an
exception escaping the inner `try`. -/
def pipelineBody (env : Env) : Except PyExc Response :=
  match env.imreadResult with
  | none => .ok (.errorPage "Invalid image file")
  | some image =>
    match env.locate_puzzle image with
    | .error e => .error e
    | .ok warped =>
      match buildBoardE env.extract_digit env.classify warped with
      | .error e => .error e
      | .ok board =>
        match env.sudoku_solve board with
        | none =>
          .ok (.errorPage
            "Could not solve the Sudoku puzzle. Please check if the puzzle is valid.")
        | some solvedBoard =>
          .ok (.resultPage (String.mk (format_board solvedBoard)))

/-- The `/solve` handler.  `fs` is the set of existing temporary files;
the result is the HTTP response paired with the files existing after the
request.  The temp file is created before `file.save`; a `save` failure
propagates to the outer `except` without reaching the inner
`try/finally`, every later path runs the `finally` (unlink), and the
outer `except Exception` renders `f'An error occurred: {str(e)}'`. -/
def solveHandler (env : Env) (fs : List String) : Response × List String :=
  if env.hasImageFile = false then (.errorPage "No image file provided", fs)
  else if env.filename = "" then (.errorPage "No file selected", fs)
  else
    let fs1 := env.tempName :: fs
    match env.saveResult with
    | .error e => (.errorPage ("An error occurred: " ++ e.msg), fs1)
    | .ok _ =>
      let fs2 := fs1.erase env.tempName
      match pipelineBody env with
      | .ok r => (r, fs2)
      | .error e => (.errorPage ("An error occurred: " ++ e.msg), fs2)

/-! ### The solver call and mutation (app.py lines 172-179) -/

/-- A memory of grid objects, addressed by index.  Distinct addresses are
distinct Python objects. -/
abbrev Mem := List Grid

/-- Read the grid stored at an address. -/
def readMem (m : Mem) (a : Nat) : Grid := m.getD a []

/-- Overwrite the grid stored at an address. -/
def writeMem (m : Mem) (a : Nat) (g : Grid) : Mem := m.set a g

/-- `board.tolist()`: allocate a fresh deep copy of the object at `a` at
a new address, returning the new memory and the copy's address. -/
def tolist (m : Mem) (a : Nat) : Mem × Nat := (m ++ [readMem m a], m.length)

/-- Modelled from the spec: `utils.sudoku.Sudoku.solve` is missing from
the sources.  Per §4.5 the solver searches for a completion of its own
board, writing the solution back into the puzzle object's board in place
on success (`puzzle.board` holds the solution afterwards, app.py line
179) and returning a success flag.  `search` is the pure search. -/
def sudokuSolve (search : Grid → Option Grid) (m : Mem) (a : Nat) :
    Mem × Bool :=
  match search (readMem m a) with
  | some sol => (writeMem m a sol, true)
  | none => (m, false)

/-- App.py lines 172-173: `puzzle = Sudoku(board.tolist(), 9, 9)` then
`solved = puzzle.solve()`.  Returns the final memory, the puzzle's board
address, and the success flag. -/
def solveStage (search : Grid → Option Grid) (m : Mem) (callerAddr : Nat) :
    Mem × Nat × Bool :=
  let alloc := tolist m callerAddr
  let run := sudokuSolve search alloc.1 alloc.2
  (run.1, alloc.2, run.2)

/-! ### Concrete data used by witnesses and counterexamples -/

/-- The all-zero 9×9 grid. -/
def grid0 : Grid := List.replicate 9 (List.replicate 9 0)

/-- The all-five 9×9 grid (violates every Sudoku constraint). -/
def grid5 : Grid := List.replicate 9 (List.replicate 9 5)

/-- A varied 9×9 grid of digits 0–9. -/
def gridD : Grid :=
  (List.range 9).map (fun i => (List.range 9).map (fun j => (i + j) % 10))

/-- A concrete 10×10 image with all-distinct pixels. -/
def img10 : Image :=
  (List.range 10).map (fun i => (List.range 10).map (fun j => 10 * i + j))

/-- A 1×1 stand-in decoded image. -/
def img1 : Image := [[7]]

/-- A one-object memory holding a caller's board. -/
def memW : Mem := [[[1, 2], [3, 4]]]

/-- An environment whose stages all succeed except that the classifier
raises on every glyph, while digit extraction succeeds on every cell and
the solver would accept any board. -/
def envClassifyBoom : Env :=
  ⟨true, "a.jpg", "tmp1", .ok (), some img1,
    fun _ => .ok img10, fun _ => some [[1]],
    fun _ => .error ⟨"ClassificationFailed", "boom"⟩,
    fun g => some g⟩

/-- An environment failing at board location with a `NoBoardFound`
exception whose message is `"bad"`. -/
def envNoBoard : Env :=
  ⟨true, "a.jpg", "tmp1", .ok (), some img1,
    fun _ => .error ⟨"NoBoardFound", "bad"⟩, fun _ => none,
    fun _ => .ok 0, fun g => some g⟩

/-- The same environment failing at board location with a
`DegenerateBoundary` exception carrying the same message `"bad"`. -/
def envDegenerate : Env :=
  ⟨true, "a.jpg", "tmp1", .ok (), some img1,
    fun _ => .error ⟨"DegenerateBoundary", "bad"⟩, fun _ => none,
    fun _ => .ok 0, fun g => some g⟩

/-- An environment whose `file.save` raises (e.g. an `OSError`). -/
def envSaveFails : Env :=
  ⟨true, "a.jpg", "tmp1", .error ⟨"OSError", "disk full"⟩, some img1,
    fun _ => .ok img10, fun _ => none, fun _ => .ok 0, fun g => some g⟩

/-! ## Helper lemmas: digit formatting -/

lemma digitRepr_eq_digitChar (d : Nat) (hd : d ≤ 9) : digitRepr d = [digitChar d] := by
  interval_cases d <;> rfl

lemma nl_ne_digitChar (d : Nat) (hd : d ≤ 9) : ¬ ('\n' = digitChar d) := by
  interval_cases d <;> decide

lemma digitChar_isDigit (d : Nat) (hd : d ≤ 9) : (digitChar d).isDigit = true := by
  interval_cases d <;> decide

lemma digitChar_toNat (d : Nat) (hd : d ≤ 9) : (digitChar d).toNat - 48 = d := by
  interval_cases d <;> decide

/-! ## Helper lemmas: line splitting and joining -/

lemma splitLinesAux_of_no_nl (l : List Char) (h : '\n' ∉ l) (acc : List Char) :
    splitLinesAux l acc = [acc.reverse ++ l] := by
  induction l generalizing acc with
  | nil => simp [splitLinesAux]
  | cons c cs ih =>
    rw [splitLinesAux]
    have hc : ¬ (c = '\n') := fun hc => h (hc ▸ List.mem_cons_self c cs)
    rw [if_neg hc, ih (fun hm => h (List.mem_cons_of_mem c hm))]
    simp

lemma splitLinesAux_append_nl (l : List Char) (h : '\n' ∉ l) (cs acc : List Char) :
    splitLinesAux (l ++ '\n' :: cs) acc = (acc.reverse ++ l) :: splitLinesAux cs [] := by
  induction l generalizing acc with
  | nil => simp [splitLinesAux]
  | cons c l2 ih =>
    rw [List.cons_append, splitLinesAux]
    have hc : ¬ (c = '\n') := fun hc => h (hc ▸ List.mem_cons_self c l2)
    rw [if_neg hc, ih (fun hm => h (List.mem_cons_of_mem c hm))]
    simp

lemma splitLines_joinLines :
    ∀ ls : List PyStr, ls ≠ [] → (∀ l ∈ ls, '\n' ∉ l) →
      splitLines (joinLines ls) = ls
  | [], h, _ => absurd rfl h
  | [l], _, hnl => by
    simp only [joinLines, splitLines]
    rw [splitLinesAux_of_no_nl l (hnl l (by simp)) []]
    simp
  | l :: l2 :: ls, _, hnl => by
    have h1 : '\n' ∉ l := hnl l (by simp)
    have h2 : ∀ x ∈ l2 :: ls, '\n' ∉ x := fun x hx => hnl x (List.mem_cons_of_mem l hx)
    show splitLinesAux (l ++ '\n' :: joinLines (l2 :: ls)) [] = l :: l2 :: ls
    rw [splitLinesAux_append_nl l h1]
    have := splitLines_joinLines (l2 :: ls) (by simp) h2
    simp only [splitLines] at this
    rw [this]
    simp

/-! ## Helper lemmas: the shape of `format_board` -/

lemma range_nine : List.range 9 = [0, 1, 2, 3, 4, 5, 6, 7, 8] := by rfl

lemma rowStr_eq (b : Grid) (i : Nat) : rowStr b i = rowLine b i ++ ['\n'] := by
  simp [rowStr, rowLine, cellStr, range_nine, List.append_assoc]

lemma format_board_eq (b : Grid) :
    format_board b =
      joinLines [sepLine, rowLine b 0, rowLine b 1, rowLine b 2,
        sepLine, rowLine b 3, rowLine b 4, rowLine b 5,
        sepLine, rowLine b 6, rowLine b 7, rowLine b 8, sepLine] := by
  simp [format_board, rowStr_eq, joinLines, range_nine, List.append_assoc]

lemma sepLine_cons : sepLine = '+' :: ("-----------------------+").data := by rfl

lemma nl_not_mem_sepLine : '\n' ∉ sepLine := by decide

lemma valid_getCell_le (b : Grid) (hb : Valid9x9 b) (i j : Nat)
    (hi : i < 9) (hj : j < 9) : getCell b i j ≤ 9 := by
  obtain ⟨hlen, hrow⟩ := hb
  have hi2 : i < b.length := by omega
  have hmem : b.getD i [] ∈ b := by
    rw [List.getD_eq_getElem b [] hi2]; exact List.getElem_mem hi2
  obtain ⟨hrlen, hd⟩ := hrow _ hmem
  have hj2 : j < (b.getD i []).length := by omega
  have hmem2 : (b.getD i []).getD j 0 ∈ b.getD i [] := by
    rw [List.getD_eq_getElem _ 0 hj2]; exact List.getElem_mem hj2
  exact hd _ hmem2

lemma nl_not_mem_rowLine (b : Grid) (i : Nat)
    (h : ∀ j, j < 9 → getCell b i j ≤ 9) : '\n' ∉ rowLine b i := by
  have e0 := digitRepr_eq_digitChar _ (h 0 (by omega))
  have e1 := digitRepr_eq_digitChar _ (h 1 (by omega))
  have e2 := digitRepr_eq_digitChar _ (h 2 (by omega))
  have e3 := digitRepr_eq_digitChar _ (h 3 (by omega))
  have e4 := digitRepr_eq_digitChar _ (h 4 (by omega))
  have e5 := digitRepr_eq_digitChar _ (h 5 (by omega))
  have e6 := digitRepr_eq_digitChar _ (h 6 (by omega))
  have e7 := digitRepr_eq_digitChar _ (h 7 (by omega))
  have e8 := digitRepr_eq_digitChar _ (h 8 (by omega))
  have n0 := nl_ne_digitChar _ (h 0 (by omega))
  have n1 := nl_ne_digitChar _ (h 1 (by omega))
  have n2 := nl_ne_digitChar _ (h 2 (by omega))
  have n3 := nl_ne_digitChar _ (h 3 (by omega))
  have n4 := nl_ne_digitChar _ (h 4 (by omega))
  have n5 := nl_ne_digitChar _ (h 5 (by omega))
  have n6 := nl_ne_digitChar _ (h 6 (by omega))
  have n7 := nl_ne_digitChar _ (h 7 (by omega))
  have n8 := nl_ne_digitChar _ (h 8 (by omega))
  simp [rowLine, e0, e1, e2, e3, e4, e5, e6, e7, e8,
    n0, n1, n2, n3, n4, n5, n6, n7, n8]

lemma splitLines_format_board (b : Grid) (hb : Valid9x9 b) :
    splitLines (format_board b) =
      [sepLine, rowLine b 0, rowLine b 1, rowLine b 2,
       sepLine, rowLine b 3, rowLine b 4, rowLine b 5,
       sepLine, rowLine b 6, rowLine b 7, rowLine b 8, sepLine] := by
  rw [format_board_eq]
  apply splitLines_joinLines _ (by simp)
  have hrow : ∀ i, i < 9 → '\n' ∉ rowLine b i := fun i hi =>
    nl_not_mem_rowLine b i (fun j hj => valid_getCell_le b hb i j hi hj)
  simp only [List.forall_mem_cons]
  exact ⟨nl_not_mem_sepLine, hrow 0 (by omega), hrow 1 (by omega), hrow 2 (by omega),
    nl_not_mem_sepLine, hrow 3 (by omega), hrow 4 (by omega), hrow 5 (by omega),
    nl_not_mem_sepLine, hrow 6 (by omega), hrow 7 (by omega), hrow 8 (by omega),
    nl_not_mem_sepLine, List.forall_mem_nil _⟩

lemma rowLine_length (b : Grid) (i : Nat)
    (h : ∀ j, j < 9 → getCell b i j ≤ 9) : (rowLine b i).length = 25 := by
  have e0 := digitRepr_eq_digitChar _ (h 0 (by omega))
  have e1 := digitRepr_eq_digitChar _ (h 1 (by omega))
  have e2 := digitRepr_eq_digitChar _ (h 2 (by omega))
  have e3 := digitRepr_eq_digitChar _ (h 3 (by omega))
  have e4 := digitRepr_eq_digitChar _ (h 4 (by omega))
  have e5 := digitRepr_eq_digitChar _ (h 5 (by omega))
  have e6 := digitRepr_eq_digitChar _ (h 6 (by omega))
  have e7 := digitRepr_eq_digitChar _ (h 7 (by omega))
  have e8 := digitRepr_eq_digitChar _ (h 8 (by omega))
  simp [rowLine, e0, e1, e2, e3, e4, e5, e6, e7, e8]

lemma rowLine_ne_sepLine (b : Grid) (i : Nat) : ¬ (rowLine b i = sepLine) := by
  rw [sepLine_cons]
  simp [rowLine]

/-! ## Helper lemmas: parsing rendered text -/

lemma parseDigits_append (l1 l2 : PyStr) :
    parseDigits (l1 ++ l2) = parseDigits l1 ++ parseDigits l2 :=
  List.filterMap_append l1 l2 _

lemma parseDigits_sepLine : parseDigits sepLine = [] := by decide

lemma parseDigits_boxSep : parseDigits [' ', '|', ' '] = [] := by decide

lemma parseDigits_rowStart : parseDigits ['|', ' '] = [] := by decide

lemma parseDigits_space : parseDigits [' '] = [] := by decide

lemma parseDigits_rowEnd : parseDigits [' ', '|'] = [] := by decide

lemma parseDigits_digitRepr (d : Nat) (hd : d ≤ 9) : parseDigits (digitRepr d) = [d] := by
  rw [digitRepr_eq_digitChar d hd]
  simp [parseDigits, digitChar_isDigit d hd, digitChar_toNat d hd]

lemma parseDigits_rowLine (b : Grid) (i : Nat)
    (h : ∀ j, j < 9 → getCell b i j ≤ 9) :
    parseDigits (rowLine b i) =
      [getCell b i 0, getCell b i 1, getCell b i 2, getCell b i 3, getCell b i 4,
       getCell b i 5, getCell b i 6, getCell b i 7, getCell b i 8] := by
  simp only [rowLine, parseDigits_append, parseDigits_boxSep, parseDigits_rowStart,
    parseDigits_space, parseDigits_rowEnd,
    parseDigits_digitRepr _ (h 0 (by omega)), parseDigits_digitRepr _ (h 1 (by omega)),
    parseDigits_digitRepr _ (h 2 (by omega)), parseDigits_digitRepr _ (h 3 (by omega)),
    parseDigits_digitRepr _ (h 4 (by omega)), parseDigits_digitRepr _ (h 5 (by omega)),
    parseDigits_digitRepr _ (h 6 (by omega)), parseDigits_digitRepr _ (h 7 (by omega)),
    parseDigits_digitRepr _ (h 8 (by omega))]
  simp

lemma valid_grid_ext (b : Grid) (hb : Valid9x9 b) :
    (List.range 9).map (fun i => (List.range 9).map (fun j => getCell b i j)) = b := by
  obtain ⟨hlen, hrow⟩ := hb
  apply List.ext_getElem (by simp [hlen])
  intro i h1 h2
  simp only [List.getElem_map, List.getElem_range]
  have hmem : b[i] ∈ b := List.getElem_mem h2
  obtain ⟨hrlen, _⟩ := hrow _ hmem
  apply List.ext_getElem (by simp [hrlen])
  intro j hj1 hj2
  simp only [List.getElem_map, List.getElem_range]
  rw [getCell, List.getD_eq_getElem b [] h2, List.getD_eq_getElem _ 0 hj2]

/-! ## C3: structure of the rendered board -/

/-- **C3** (corrected).  For every 9×9 grid of digits 0–9, `format_board`
produces a fixed-width bordered block: 13 lines of 25 characters, the
1st, 5th, 9th and 13th being the `+…+` separator line (top border, two
interior band separators, bottom border — four separator lines in total,
of which two divide the 3×3 box bands), and every other line a digit row
`| d d d | d d d | d d d |` with single spaces between digits and `|` at
box boundaries.  The claim's count of "exactly three" separator lines is
wrong: see the counterexample. -/
theorem c3_render_structure (b : Grid) (hb : Valid9x9 b) :
    splitLines (format_board b) =
      [sepLine, rowLine b 0, rowLine b 1, rowLine b 2,
       sepLine, rowLine b 3, rowLine b 4, rowLine b 5,
       sepLine, rowLine b 6, rowLine b 7, rowLine b 8, sepLine]
    ∧ sepLine.length = 25
    ∧ (∀ i, i < 9 → (rowLine b i).length = 25)
    ∧ (splitLines (format_board b)).count sepLine = 4 := by
  have hle : ∀ i, i < 9 → ∀ j, j < 9 → getCell b i j ≤ 9 := fun i hi j hj =>
    valid_getCell_le b hb i j hi hj
  have hchar := splitLines_format_board b hb
  refine ⟨hchar, by decide, fun i hi => rowLine_length b i (hle i hi), ?_⟩
  rw [hchar]
  have hne : ∀ i, (sepLine == rowLine b i) = false := fun i =>
    beq_eq_false_iff_ne.mpr (fun h => rowLine_ne_sepLine b i h.symm)
  have hne2 : ∀ i, (rowLine b i == sepLine) = false := fun i =>
    beq_eq_false_iff_ne.mpr (rowLine_ne_sepLine b i)
  simp [List.count_cons, hne, hne2]

/-- **C3** witness: the theorem applied to the all-zero grid. -/
theorem c3_render_structure_witness :
    Valid9x9 grid0
    ∧ splitLines (format_board grid0) =
        [sepLine, rowLine grid0 0, rowLine grid0 1, rowLine grid0 2,
         sepLine, rowLine grid0 3, rowLine grid0 4, rowLine grid0 5,
         sepLine, rowLine grid0 6, rowLine grid0 7, rowLine grid0 8, sepLine]
    ∧ sepLine.length = 25
    ∧ (rowLine grid0 4).length = 25
    ∧ (splitLines (format_board grid0)).count sepLine = 4 :=
  ⟨by decide, (c3_render_structure grid0 (by decide)).1,
    (c3_render_structure grid0 (by decide)).2.1,
    (c3_render_structure grid0 (by decide)).2.2.1 4 (by omega),
    (c3_render_structure grid0 (by decide)).2.2.2⟩

/-- **C3** counterexample to the claim as stated: at the all-zero grid
the rendered block contains four lines equal to the `+…+` separator (top
border, two interior separators before rows 3 and 6, bottom border), and
only the two interior ones divide the 3×3 box bands — under neither
reading are there "exactly three" horizontal separator lines. -/
theorem c3_counterexample :
    (splitLines (format_board grid0)).count sepLine = 4
    ∧ ((splitLines (format_board grid0)).drop 1).dropLast.count sepLine = 2
    ∧ ¬ ((splitLines (format_board grid0)).count sepLine = 3)
    ∧ ¬ (((splitLines (format_board grid0)).drop 1).dropLast.count sepLine = 3) := by
  decide

/-! ## C4: rendering round-trips through parsing -/

/-- **C4** (confirmed).  For every 9×9 grid of digits 0–9, splitting the
rendered block into lines, reading off the digits of each line and
discarding the digit-free border/separator lines recovers exactly the
grid that was rendered. -/
theorem c4_render_parse_roundtrip (b : Grid) (hb : Valid9x9 b) :
    parseBoard (format_board b) = b := by
  have hle : ∀ i, i < 9 → ∀ j, j < 9 → getCell b i j ≤ 9 := fun i hi j hj =>
    valid_getCell_le b hb i j hi hj
  rw [parseBoard, splitLines_format_board b hb]
  simp only [List.map_cons, List.map_nil, parseDigits_sepLine,
    parseDigits_rowLine b 0 (hle 0 (by omega)), parseDigits_rowLine b 1 (hle 1 (by omega)),
    parseDigits_rowLine b 2 (hle 2 (by omega)), parseDigits_rowLine b 3 (hle 3 (by omega)),
    parseDigits_rowLine b 4 (hle 4 (by omega)), parseDigits_rowLine b 5 (hle 5 (by omega)),
    parseDigits_rowLine b 6 (hle 6 (by omega)), parseDigits_rowLine b 7 (hle 7 (by omega)),
    parseDigits_rowLine b 8 (hle 8 (by omega))]
  simp only [List.filter, List.isEmpty_cons, List.isEmpty_nil, Bool.not_true,
    Bool.not_false]
  have h2 := valid_grid_ext b hb
  simp only [range_nine, List.map_cons, List.map_nil] at h2
  exact h2

/-- **C4** witness: the round-trip at a varied concrete grid. -/
theorem c4_render_parse_roundtrip_witness :
    Valid9x9 gridD ∧ parseBoard (format_board gridD) = gridD :=
  ⟨by decide, c4_render_parse_roundtrip gridD (by decide)⟩

/-! ## C5: the cell lattice -/

lemma slice2d_get (img : Image) (sY tY sX tX i j : Nat)
    (hi : i < tY) (hiY : sY + i < img.length)
    (hj : j < tX) (hjX : sX + j < (img.getD (sY + i) []).length) :
    getCell (slice2d img sY (sY + tY) sX (sX + tX)) i j =
      getCell img (sY + i) (sX + j) := by
  unfold slice2d getCell
  have e1 : sY + tY - sY = tY := by omega
  have e2 : sX + tX - sX = tX := by omega
  rw [e1, e2]
  have hlen1 : i < (((img.drop sY).take tY).map
      (fun r => (r.drop sX).take tX)).length := by
    simp only [List.length_map, List.length_take, List.length_drop]
    omega
  rw [List.getD_eq_getElem _ [] hlen1]
  simp only [List.getElem_map, List.getElem_take, List.getElem_drop]
  rw [List.getD_eq_getElem img [] hiY] at hjX ⊢
  have hlen2 : j < ((img[sY + i].drop sX).take tX).length := by
    simp only [List.length_take, List.length_drop]
    omega
  rw [List.getD_eq_getElem _ 0 hlen2, List.getD_eq_getElem _ 0 hjX]
  simp only [List.getElem_take, List.getElem_drop]

/-- **C5** (confirmed).  The segmenter divides the warped board into a
9×9 lattice with step sizes `width // 9` and `height // 9`: cell
`(row y, col x)` has `stepY` rows of `stepX` pixels, its pixel `(i, j)`
is the board's pixel `(y*stepY + i, x*stepX + j)`, and the partition is
deterministic for identical input. -/
theorem c5_segmenter_lattice (warped : Image)
    (hw : ∀ r ∈ warped, r.length = imgW warped)
    (y x : Nat) (hy : y < 9) (hx : x < 9) :
    (cellAt warped y x).length = imgH warped / 9
    ∧ (∀ r ∈ cellAt warped y x, r.length = imgW warped / 9)
    ∧ (∀ i j, i < imgH warped / 9 → j < imgW warped / 9 →
        getCell (cellAt warped y x) i j =
          getCell warped (y * (imgH warped / 9) + i) (x * (imgW warped / 9) + j))
    ∧ (∀ warped2, warped = warped2 → cellAt warped y x = cellAt warped2 y x) := by
  have hsY : imgH warped / 9 * 9 ≤ warped.length := by
    have := Nat.div_mul_le_self (imgH warped) 9
    simpa [imgH] using this
  have hsX : imgW warped / 9 * 9 ≤ imgW warped := Nat.div_mul_le_self _ 9
  have hym : y * (warped.length / 9) ≤ 8 * (warped.length / 9) :=
    Nat.mul_le_mul_right _ (by omega)
  have hxm : x * (imgW warped / 9) ≤ 8 * (imgW warped / 9) :=
    Nat.mul_le_mul_right _ (by omega)
  have hys : (y + 1) * (warped.length / 9) =
      y * (warped.length / 9) + warped.length / 9 := by ring
  have hxs : (x + 1) * (imgW warped / 9) =
      x * (imgW warped / 9) + imgW warped / 9 := by ring
  refine ⟨?_, ?_, ?_, fun w2 h => by rw [h]⟩
  · simp only [cellAt, slice2d, List.length_map, List.length_take, List.length_drop]
    simp only [imgH] at *
    omega
  · intro r hr
    simp only [cellAt, slice2d, List.mem_map] at hr
    obtain ⟨r0, hr0, rfl⟩ := hr
    have hr0m : r0 ∈ warped := List.drop_subset _ _ (List.mem_of_mem_take hr0)
    simp only [List.length_take, List.length_drop, hw r0 hr0m]
    omega
  · intro i j hi hj
    have hyi : y * (imgH warped / 9) + i < warped.length := by
      simp only [imgH] at *
      omega
    have hstepY : (y + 1) * (imgH warped / 9) =
        y * (imgH warped / 9) + (imgH warped / 9) := by ring
    have hstepX : (x + 1) * (imgW warped / 9) =
        x * (imgW warped / 9) + (imgW warped / 9) := by ring
    have hxj : x * (imgW warped / 9) + j <
        (warped.getD (y * (imgH warped / 9) + i) []).length := by
      rw [List.getD_eq_getElem warped [] hyi, hw _ (List.getElem_mem hyi)]
      omega
    have := slice2d_get warped (y * (imgH warped / 9)) (imgH warped / 9)
      (x * (imgW warped / 9)) (imgW warped / 9) i j hi hyi hj hxj
    simpa only [cellAt, hstepY, hstepX] using this

/-- **C5** witness: on a concrete 10×10 image (so the steps are
`10 // 9 = 1` and the leftover row/column is dropped), the cell at
`(row 1, col 2)` is the 1×1 sub-image holding pixel `(1, 2)`. -/
theorem c5_segmenter_lattice_witness :
    (∀ r ∈ img10, r.length = imgW img10)
    ∧ (cellAt img10 1 2).length = imgH img10 / 9
    ∧ getCell (cellAt img10 1 2) 0 0 =
        getCell img10 (1 * (imgH img10 / 9) + 0) (2 * (imgW img10 / 9) + 0) :=
  ⟨by decide, (c5_segmenter_lattice img10 (by decide) 1 2 (by omega) (by omega)).1,
    (c5_segmenter_lattice img10 (by decide) 1 2 (by omega) (by omega)).2.2.1 0 0
      (by decide) (by decide)⟩

/-! ## Helper lemmas: the cell loop -/

lemma cellClassifyCnt_fst (extract : Image → Option Image)
    (classify : Image → Except PyExc Nat) (cell : Image) :
    (cellClassifyCnt extract classify cell).1 = cellClassifyE extract classify cell := by
  unfold cellClassifyCnt cellClassifyE
  cases extract cell <;> rfl

lemma mapE_ok_length {α β : Type} {f : α → Except PyExc β} :
    ∀ {l : List α} {ys : List β}, mapE f l = .ok ys → ys.length = l.length := by
  intro l
  induction l with
  | nil =>
    intro ys h
    simp only [mapE] at h
    cases h
    rfl
  | cons a l2 ih =>
    intro ys h
    simp only [mapE] at h
    cases hfa : f a with
    | error e => rw [hfa] at h; cases h
    | ok b =>
      rw [hfa] at h
      cases hml : mapE f l2 with
      | error e => rw [hml] at h; cases h
      | ok bs =>
        rw [hml] at h
        cases h
        simp [ih hml]

lemma mapE_ok_get {α β : Type} {f : α → Except PyExc β} :
    ∀ {l : List α} {ys : List β}, mapE f l = .ok ys →
      ∀ i (hi : i < l.length) (hi2 : i < ys.length),
        f (l.get ⟨i, hi⟩) = .ok (ys.get ⟨i, hi2⟩) := by
  intro l
  induction l with
  | nil =>
    intro ys h i hi hi2
    exact absurd hi (by simp)
  | cons a l2 ih =>
    intro ys h i hi hi2
    simp only [mapE] at h
    cases hfa : f a with
    | error e => rw [hfa] at h; cases h
    | ok b =>
      rw [hfa] at h
      cases hml : mapE f l2 with
      | error e => rw [hml] at h; cases h
      | ok bs =>
        rw [hml] at h
        cases h
        cases i with
        | zero => simpa using hfa
        | succ i2 =>
          have := ih hml i2 (by simpa using hi) (by simpa using hi2)
          simpa using this

lemma buildBoardE_ok_length {extract : Image → Option Image}
    {classify : Image → Except PyExc Nat} {warped : Image} {b : Grid}
    (h : buildBoardE extract classify warped = .ok b) : b.length = 9 := by
  have := mapE_ok_length h
  simpa using this

lemma buildBoardE_ok_row {extract : Image → Option Image}
    {classify : Image → Except PyExc Nat} {warped : Image} {b : Grid}
    (h : buildBoardE extract classify warped = .ok b) (y : Nat) (hy : y < 9) :
    mapE (fun x => cellClassifyE extract classify (cellAt warped y x))
      (List.range 9) = .ok (b.getD y []) := by
  have hlen : b.length = 9 := buildBoardE_ok_length h
  have hy2 : y < b.length := by omega
  have := mapE_ok_get h y (by simp; omega) hy2
  simp only [List.get_eq_getElem, List.getElem_range] at this
  rw [List.getD_eq_getElem b [] hy2]
  exact this

lemma buildBoardE_ok_rowlength {extract : Image → Option Image}
    {classify : Image → Except PyExc Nat} {warped : Image} {b : Grid}
    (h : buildBoardE extract classify warped = .ok b) (y : Nat) (hy : y < 9) :
    (b.getD y []).length = 9 := by
  have := mapE_ok_length (buildBoardE_ok_row h y hy)
  simpa using this

lemma buildBoardE_ok_cell {extract : Image → Option Image}
    {classify : Image → Except PyExc Nat} {warped : Image} {b : Grid}
    (h : buildBoardE extract classify warped = .ok b) (y x : Nat)
    (hy : y < 9) (hx : x < 9) :
    cellClassifyE extract classify (cellAt warped y x) = .ok (getCell b y x) := by
  have hrow := buildBoardE_ok_row h y hy
  have hrlen : (b.getD y []).length = 9 := buildBoardE_ok_rowlength h y hy
  have hx2 : x < (b.getD y []).length := by omega
  have := mapE_ok_get hrow x (by simp; omega) hx2
  simp only [List.get_eq_getElem, List.getElem_range] at this
  rw [getCell, List.getD_eq_getElem _ 0 hx2]
  exact this

/-! ## C6: empty cells bypass the classifier -/

/-- **C6** (confirmed).  If `extract_digit` returns nothing for a cell,
the classifier is not invoked on that cell (its invocation count is 0,
the cell's loop body yields `0` without consulting `classify`), and in
any successfully built board the corresponding entry is `0`. -/
theorem c6_empty_cell_no_classify (extract : Image → Option Image)
    (classify : Image → Except PyExc Nat) (warped : Image) (y x : Nat)
    (hnone : extract (cellAt warped y x) = none) :
    cellClassifyCnt extract classify (cellAt warped y x) = (.ok 0, 0)
    ∧ ∀ b, buildBoardE extract classify warped = .ok b →
        y < 9 → x < 9 → getCell b y x = 0 := by
  constructor
  · unfold cellClassifyCnt
    rw [hnone]
  · intro b hb hy hx
    have hc := buildBoardE_ok_cell hb y x hy hx
    unfold cellClassifyE at hc
    rw [hnone] at hc
    exact (Except.ok.inj hc).symm

/-- **C6** witness: with an extractor that finds no glyph anywhere and a
classifier that would return 7, the loop produces the all-zero board and
never calls the classifier. -/
theorem c6_empty_cell_no_classify_witness :
    cellClassifyCnt (fun _ => none) (fun _ => .ok 7) (cellAt img10 2 3) =
      (.ok 0, 0)
    ∧ getCell grid0 2 3 = 0 :=
  ⟨(c6_empty_cell_no_classify (fun _ => none) (fun _ => .ok 7) img10 2 3 rfl).1,
    (c6_empty_cell_no_classify (fun _ => none) (fun _ => .ok 7) img10 2 3 rfl).2
      grid0 (by rfl) (by omega) (by omega)⟩

/-! ## C7: assembly is pure reshaping -/

/-- **C7** (confirmed).  The board is assembled by the row-major double
loop: it has exactly 9 rows of 9 entries, and for every linear cell
index `i < 81` the entry at `(i / 9, i % 9)` is exactly the
classification result of the `i`-th cell in row-major order — values are
placed verbatim, with no Sudoku-constraint validation (the witness
assembles an all-5 board that violates every constraint). -/
theorem c7_assembly_reshape (extract : Image → Option Image)
    (classify : Image → Except PyExc Nat) (warped : Image) (b : Grid)
    (hb : buildBoardE extract classify warped = .ok b) :
    b.length = 9
    ∧ (∀ r ∈ b, r.length = 9)
    ∧ ∀ i, i < 81 →
        cellClassifyE extract classify (cellAt warped (i / 9) (i % 9)) =
          .ok (getCell b (i / 9) (i % 9)) := by
  have hlen := buildBoardE_ok_length hb
  refine ⟨hlen, ?_, ?_⟩
  · intro r hr
    obtain ⟨⟨n, hn⟩, rfl⟩ := List.mem_iff_get.mp hr
    have hn9 : n < 9 := by omega
    have := buildBoardE_ok_rowlength hb n hn9
    rw [List.getD_eq_getElem b [] hn] at this
    simpa using this
  · intro i hi
    exact buildBoardE_ok_cell hb (i / 9) (i % 9) (by omega) (by omega)

/-- **C7** witness: a classifier that answers 5 for every glyph yields
the all-5 board — every value placed verbatim at `(i / 9, i % 9)` even
though the result violates every Sudoku constraint. -/
theorem c7_assembly_reshape_witness :
    grid5.length = 9
    ∧ cellClassifyE (fun _ => some img1) (fun _ => .ok 5)
        (cellAt img10 (10 / 9) (10 % 9)) = .ok (getCell grid5 (10 / 9) (10 % 9)) :=
  ⟨(c7_assembly_reshape (fun _ => some img1) (fun _ => .ok 5) img10 grid5
      (by rfl)).1,
    (c7_assembly_reshape (fun _ => some img1) (fun _ => .ok 5) img10 grid5
      (by rfl)).2.2 10 (by omega)⟩

/-! ## C8: the solver never mutates the caller's board -/

lemma getD_append_set (m : Mem) (g sol : Grid) (a : Nat) (ha : a < m.length) :
    ((m ++ [g]).set m.length sol).getD a [] = m.getD a []
    ∧ (m ++ [g]).getD a [] = m.getD a [] := by
  have h1 : a < (m ++ [g]).length := by simp; omega
  have h2 : a < ((m ++ [g]).set m.length sol).length := by simp; omega
  constructor
  · rw [List.getD_eq_getElem _ [] h2, List.getElem_set_ne (by omega),
      List.getElem_append_left ha, List.getD_eq_getElem m [] ha]
  · rw [List.getD_eq_getElem _ [] h1, List.getElem_append_left ha,
      List.getD_eq_getElem m [] ha]

/-- **C8** (confirmed).  `Sudoku(board.tolist(), 9, 9)` hands the solver
a fresh copy of the caller's board, so whatever in-place writes the
solver's search performs on its own board — and whether it succeeds or
fails — the board the caller holds is unchanged afterwards. -/
theorem c8_solver_no_mutation (search : Grid → Option Grid) (m : Mem)
    (a : Nat) (ha : a < m.length) :
    readMem (solveStage search m a).1 a = readMem m a := by
  show readMem (sudokuSolve search (m ++ [readMem m a]) m.length).1 a = readMem m a
  unfold sudokuSolve
  cases hs : search (readMem (m ++ [readMem m a]) m.length) with
  | none =>
    show readMem (m ++ [readMem m a]) a = readMem m a
    exact (getD_append_set m (readMem m a) [] a ha).2
  | some sol =>
    show readMem (writeMem (m ++ [readMem m a]) m.length sol) a = readMem m a
    exact (getD_append_set m (readMem m a) sol a ha).1

/-- **C8** witness: the caller's board at address 0 is unchanged after a
successful solve that overwrites the solver's own board, and after a
failed solve. -/
theorem c8_solver_no_mutation_witness :
    readMem (solveStage (fun _ => some [[9, 9], [9, 9]]) memW 0).1 0 = readMem memW 0
    ∧ readMem (solveStage (fun _ => none) memW 0).1 0 = readMem memW 0 :=
  ⟨c8_solver_no_mutation (fun _ => some [[9, 9], [9, 9]]) memW 0 (by decide),
    c8_solver_no_mutation (fun _ => none) memW 0 (by decide)⟩

/-! ## C1: a classification exception aborts the request -/

/-- **C1** (corrected).  The claim said a per-cell classification failure
leaves the cell blank and solving still proceeds.  In the code there is
no per-cell exception handling: if classifying any cell raises, the
exception propagates to the outer `except Exception`, which renders the
generic error page — the solver is never consulted (the response is the
same for every possible `sudoku_solve`), and no blank-cell board is
solved. -/
theorem c1_classify_error_aborts (env : Env) (fs : List String)
    (img warped : Image) (e : PyExc)
    (h1 : env.hasImageFile = true) (h2 : ¬ (env.filename = ""))
    (h3 : env.saveResult = .ok ()) (h4 : env.imreadResult = some img)
    (h5 : env.locate_puzzle img = .ok warped)
    (h6 : buildBoardE env.extract_digit env.classify warped = .error e) :
    (solveHandler env fs).1 = .errorPage ("An error occurred: " ++ e.msg)
    ∧ ∀ s2, (solveHandler
        (Env.mk env.hasImageFile env.filename env.tempName env.saveResult
          env.imreadResult env.locate_puzzle env.extract_digit env.classify s2)
        fs).1 = .errorPage ("An error occurred: " ++ e.msg) := by
  constructor
  · simp [solveHandler, pipelineBody, h1, h2, h3, h4, h5, h6]
  · intro s2
    simp [solveHandler, pipelineBody, h1, h2, h3, h4, h5, h6]

/-- **C1** witness: the amended theorem applied to a concrete
environment whose classifier raises. -/
theorem c1_classify_error_aborts_witness :
    (solveHandler envClassifyBoom []).1 = .errorPage "An error occurred: boom" :=
  (c1_classify_error_aborts envClassifyBoom [] img1 img10
    ⟨"ClassificationFailed", "boom"⟩ rfl (by decide) rfl rfl rfl (by rfl)).1

/-- **C1** counterexample to the claim as stated: in `envClassifyBoom`
every stage succeeds, a glyph is extracted in every cell, the solver
accepts any board — yet because the classifier raises on the first cell
the handler renders the generic error page.  Had the claim held, the
cells would have been left blank and the solver (which echoes its input)
would have produced the result page for the all-zero grid. -/
theorem c1_counterexample :
    (solveHandler envClassifyBoom []).1 = .errorPage "An error occurred: boom"
    ∧ envClassifyBoom.extract_digit (cellAt img10 0 0) = some [[1]]
    ∧ envClassifyBoom.sudoku_solve grid0 = some grid0
    ∧ ¬ ((solveHandler envClassifyBoom []).1 =
          .resultPage (String.mk (format_board grid0))) := by
  refine ⟨by rfl, by rfl, by rfl, ?_⟩
  intro h
  rw [show (solveHandler envClassifyBoom []).1 =
      Response.errorPage "An error occurred: boom" from rfl] at h
  cases h

/-! ## C2: error kinds are collapsed by the handler -/

/-- **C2** (corrected).  The claim said any two inputs failing for
different reasons yield error outputs that differ by kind.  The handler
has only two error shapes: the fixed "Could not solve…" message for a
solver failure, and `'An error occurred: ' + str(e)` for every exception
— the exception's kind does not reach the output, so two failures of
different kinds with equal messages are indistinguishable (and no
`Timeout` kind exists anywhere in the code). -/
theorem c2_error_kinds_collapsed (env : Env) (fs : List String)
    (img : Image) (e : PyExc)
    (h1 : env.hasImageFile = true) (h2 : ¬ (env.filename = ""))
    (h3 : env.saveResult = .ok ()) (h4 : env.imreadResult = some img)
    (h5 : env.locate_puzzle img = .error e) :
    (solveHandler env fs).1 = .errorPage ("An error occurred: " ++ e.msg)
    ∧ ∀ env2 fs2 img2 e2, env2.hasImageFile = true → ¬ (env2.filename = "") →
        env2.saveResult = .ok () → env2.imreadResult = some img2 →
        env2.locate_puzzle img2 = .error e2 → e2.msg = e.msg →
        (solveHandler env2 fs2).1 = (solveHandler env fs).1 := by
  have hmain : (solveHandler env fs).1 =
      .errorPage ("An error occurred: " ++ e.msg) := by
    simp [solveHandler, pipelineBody, h1, h2, h3, h4, h5]
  refine ⟨hmain, ?_⟩
  intro env2 fs2 img2 e2 g1 g2 g3 g4 g5 gmsg
  rw [hmain]
  simp [solveHandler, pipelineBody, g1, g2, g3, g4, g5, gmsg]

/-- **C2** witness: the amended theorem applied to two concrete
environments failing with different exception kinds but the same
message. -/
theorem c2_error_kinds_collapsed_witness :
    (solveHandler envNoBoard []).1 = .errorPage "An error occurred: bad"
    ∧ (solveHandler envDegenerate []).1 = (solveHandler envNoBoard []).1 :=
  ⟨(c2_error_kinds_collapsed envNoBoard [] img1 ⟨"NoBoardFound", "bad"⟩
      rfl (by decide) rfl rfl rfl).1,
    (c2_error_kinds_collapsed envNoBoard [] img1 ⟨"NoBoardFound", "bad"⟩
      rfl (by decide) rfl rfl rfl).2 envDegenerate [] img1
      ⟨"DegenerateBoundary", "bad"⟩ rfl (by decide) rfl rfl rfl rfl⟩

/-- **C2** counterexample to the claim as stated: two requests that fail
for different reasons — board location raises a `NoBoardFound` exception
in one and a `DegenerateBoundary` exception in the other — produce
exactly the same handler output, so the failure kinds are not
distinguishable. -/
theorem c2_counterexample :
    envNoBoard.locate_puzzle img1 = .error ⟨"NoBoardFound", "bad"⟩
    ∧ envDegenerate.locate_puzzle img1 = .error ⟨"DegenerateBoundary", "bad"⟩
    ∧ ¬ (("NoBoardFound" : String) = "DegenerateBoundary")
    ∧ solveHandler envNoBoard [] = solveHandler envDegenerate [] := by
  refine ⟨by rfl, by rfl, by decide, by rfl⟩

/-! ## C9: temp-file lifecycle -/

/-- **C9** (corrected).  On every path where saving the upload to the
temp file succeeds — success and all pipeline-failure paths alike — the
`finally` block deletes the temp file before the handler returns, and
the paths that fail before the temp file is created leave the file
system unchanged.  But if `file.save` itself raises, the already-created
temp file is never deleted (the `try/finally` only starts after the
`with` block): see the counterexample. -/
theorem c9_temp_file_cleanup (env : Env) (fs : List String)
    (h : env.saveResult = .ok ()) :
    (solveHandler env fs).2 = fs := by
  by_cases h1 : env.hasImageFile = false
  · simp [solveHandler, h1]
  · by_cases h2 : env.filename = ""
    · simp [solveHandler, h1, h2]
    · cases hp : pipelineBody env with
      | ok r => simp [solveHandler, h1, h2, h, hp]
      | error e => simp [solveHandler, h1, h2, h, hp]

/-- **C9** witness: a request whose pipeline fails after the save still
ends with the file system it started from. -/
theorem c9_temp_file_cleanup_witness : (solveHandler envNoBoard []).2 = [] :=
  c9_temp_file_cleanup envNoBoard [] rfl

/-- **C9** counterexample to the claim as stated: when `file.save`
raises, the temp file created by `NamedTemporaryFile(delete=False)`
survives the request — the handler returns with `"tmp1"` still on
disk. -/
theorem c9_counterexample :
    (solveHandler envSaveFails []).2 = ["tmp1"]
    ∧ ¬ ((solveHandler envSaveFails []).2 = []) := by
  refine ⟨by rfl, ?_⟩
  intro h
  rw [show (solveHandler envSaveFails []).2 = ["tmp1"] from rfl] at h
  cases h

/-! ## C10: the handler is total -/

lemma pipelineBody_pages (env : Env) (r : Response)
    (h : pipelineBody env = .ok r) :
    ∃ s, r = .resultPage s ∨ r = .errorPage s := by
  unfold pipelineBody at h
  split at h
  · exact ⟨_, Or.inr (Except.ok.inj h).symm⟩
  · split at h
    · cases h
    · split at h
      · cases h
      · split at h
        · exact ⟨_, Or.inr (Except.ok.inj h).symm⟩
        · exact ⟨_, Or.inl (Except.ok.inj h).symm⟩

/-- **C10** (confirmed).  The `/solve` handler is total at its
interface: whatever the request and whatever any pipeline stage does —
missing file field, empty filename, undecodable image, any exception
raised by a stage, solver failure — the handler returns a rendered page
(a result page or an error page) and never propagates an exception. -/
theorem c10_handler_total (env : Env) (fs : List String) :
    ∃ s, (solveHandler env fs).1 = .resultPage s
      ∨ (solveHandler env fs).1 = .errorPage s := by
  by_cases h1 : env.hasImageFile = false
  · exact ⟨"No image file provided", Or.inr (by simp [solveHandler, h1])⟩
  by_cases h2 : env.filename = ""
  · exact ⟨"No file selected", Or.inr (by simp [solveHandler, h1, h2])⟩
  cases hs : env.saveResult with
  | error e =>
    exact ⟨"An error occurred: " ++ e.msg, Or.inr (by simp [solveHandler, h1, h2, hs])⟩
  | ok u =>
    cases hp : pipelineBody env with
    | error e =>
      exact ⟨"An error occurred: " ++ e.msg,
        Or.inr (by simp [solveHandler, h1, h2, hs, hp])⟩
    | ok r =>
      obtain ⟨s, hr | hr⟩ := pipelineBody_pages env r hp
      · exact ⟨s, Or.inl (by simp [solveHandler, h1, h2, hs, hp, hr])⟩
      · exact ⟨s, Or.inr (by simp [solveHandler, h1, h2, hs, hp, hr])⟩

end OCRSudoku
